import Mathlib

/-!
# Verification of the used-cars-webscraping-etl data-access layer

A shallow embedding of the two components specified in `spec.md`:

* `src/src/database/database.py` — the statement builder/executor
  (`insert_record`, `select_records`, `update_records`, `delete_records`,
  `select_record_by_id`, `update_record_by_id`, `select_unique_record`)
  and the primary-key resolver (`get_primary_key_column`);
* `src/src/orm/base.py` — the record-lifecycle layer (`__init_subclass__`,
  `__init__`, `dict_record`, `record_exists`, `pk`, `dump`, `update`,
  `from_id_in_database`, `all`).

Modelling conventions:

* The PostgreSQL store behind a table is a `TableState`: the list of full
  rows in insertion order plus the next value of the table's serial
  primary-key sequence.  A `TableSchema` holds what the engine knows about
  the table: its column list, the catalog-reported primary-key columns and
  the serial column, if any.  The Python methods receive a table *name*;
  the embedding applies each operation directly to that table's
  schema/state pair, which is the same dispatch without the string lookup.
* Python exceptions are the `error` side of `Except`.  Every `raise` site
  of the source gets its own `DBError` constructor.  An operation that
  raises before executing its statement leaves the store untouched, which
  the embedding renders by returning `error` without a new state.
* SQL values are the `Value` type; Python `None` / SQL `NULL` is
  `Value.null`.  The store is idealized: a `col = v` condition matches by
  plain value equality (including `null = null`); SQL three-valued logic
  for NULL comparisons is engine behaviour outside this repository and is
  not modelled.
* Python dicts over column names are association lists built with
  `dictInsert` (overwrite in place, else append), which reproduces dict
  insertion-order semantics.
-/

namespace UsedCarsETL

/-- A scalar cell value: string, integer, timestamp, boolean or NULL
(Python `None`). -/
inductive Value where
  | str (s : String)
  | int (n : Int)
  | time (t : Nat)
  | bool (b : Bool)
  | null
deriving DecidableEq, Repr

/-- A record / row / Python dict keyed by column names. -/
abbrev Row := List (String × Value)

/-- Boolean membership of a string in a list (Python `x in xs`). -/
def memB (c : String) (l : List String) : Bool :=
  l.any (fun x => decide (x = c))

/-- First-match lookup in a `Row` (Python `d[k]` / `d.get(k)`). -/
def lookupR : Row → String → Option Value
  | [], _ => none
  | (k, v) :: rest, c => if k = c then some v else lookupR rest c

/-- Lookup with Python's `getattr(obj, k, None)` / `d.get(k)` default. -/
def lookupD (r : Row) (c : String) : Value :=
  (lookupR r c).getD Value.null

/-- Python `name.startswith("_")` — the first character of the name is the
private marker (written via `String.data` so that proofs can evaluate
it). -/
def isPrivateName (c : String) : Bool :=
  match c.data with
  | [] => false
  | ch :: _ => ch = '_'

/-- Python dict assignment `d[k] = v`: overwrite the existing entry in
place, else append. -/
def dictInsert (m : Row) (k : String) (v : Value) : Row :=
  if m.any (fun kv => decide (kv.1 = k)) then
    m.map (fun kv => if kv.1 = k then (k, v) else kv)
  else m ++ [(k, v)]

/-- Python dict construction from a pair sequence (first-occurrence key
order, last value wins). -/
def dictOfPairs (l : List (String × Value)) : Row :=
  l.foldl (fun m kv => dictInsert m kv.1 kv.2) []

/-- One constructor per `raise` site of `database.py` / `base.py`.
`pyTypeError` is `TypeError` (e.g. `sql.Identifier` applied to a list of
column names), `unboundLocal` is `UnboundLocalError`. -/
inductive DBError where
  | noPrimaryKey
  | insertFailed
  | undefinedColumn
  | setShapeMismatch
  | predicateShapeMismatch
  | deleteNoWhere
  | recordNotFound
  | bothPatchForms
  | missingPatch
  | patchShapeMismatch
  | noUpdatableColumns
  | emptyConditions
  | ambiguousResult
  | pyTypeError
  | storeTypeMismatch
  | keyError
  | indexError
  | unknownColumn
  | invalidColumn
  | invalidColumnsParam
  | unboundLocal
  | keyArityMismatch
  | compositeKeyNotImplemented
deriving DecidableEq, Repr

/-- What the engine knows about one table: its full column list, the
catalog-reported primary-key columns (in catalog order), and the serial
(auto-assigned) column, if the table has one. -/
structure TableSchema where
  columns : List String
  pkCols : List String
  serial : Option String
deriving DecidableEq, Repr

/-- The store contents of one table: the rows in insertion order and the
next value of the table's serial sequence. -/
structure TableState where
  rows : List Row
  nextId : Int
deriving DecidableEq, Repr

/-- `Database.get_primary_key_column` (database.py:84-127): no catalog row
raises `ValueError` (`NoPrimaryKey`); one row returns the bare column name;
several rows return the list in catalog order. -/
inductive PKShape where
  | single (c : String)
  | composite (cs : List String)
deriving DecidableEq, Repr

def get_primary_key_column (ts : TableSchema) : Except DBError PKShape :=
  match ts.pkCols with
  | [] => .error .noPrimaryKey
  | [c] => .ok (.single c)
  | cs => .ok (.composite cs)

/-- Value of column `c` in the row produced by `INSERT ... RETURNING *`:
the supplied value if the column was in the insert list, else the serial
sequence value for the serial column, else the NULL default. -/
def storedValue (ts : TableSchema) (nextId : Int) (record : Row) (c : String) : Value :=
  match lookupR record c with
  | some v => v
  | none => if ts.serial = some c then .int nextId else .null

/-- `Database.insert_record` (database.py:129-170).  The record is the
Python dict `{col: value for col, value in zip(columns, values) if not
col.startswith("_")}` — note `zip` truncates to the shorter list and no
length validation is performed.  The engine rejects unknown columns;
otherwise it stores and returns the full row. -/
def insert_record (ts : TableSchema) (st : TableState)
    (columns : List String) (values : List Value) :
    Except DBError (Row × TableState) :=
  let record := dictOfPairs ((columns.zip values).filter
    (fun cv => !isPrivateName cv.1))
  if record.all (fun kv => memB kv.1 ts.columns) then
    let row := ts.columns.map (fun c => (c, storedValue ts st.nextId record c))
    let usedSerial : Bool := match ts.serial with
      | some c => memB c ts.columns && (lookupR record c).isNone
      | none => false
    .ok (row, ⟨st.rows ++ [row], if usedSerial then st.nextId + 1 else st.nextId⟩)
  else .error .undefinedColumn

/-- Comparison operators accepted in WHERE triples (`=`, `>`, `<`, ...). -/
def valueLt : Value → Value → Bool
  | .int a, .int b => a < b
  | .str a, .str b => a < b
  | .time a, .time b => a < b
  | _, _ => false

def evalOp (op : String) (a b : Value) : Bool :=
  if op = "=" then decide (a = b)
  else if op = ">" then valueLt b a
  else if op = "<" then valueLt a b
  else false

/-- One row against an ANDed WHERE triple list. -/
def rowWhere (wc wo : List String) (wv : List Value) (r : Row) : Bool :=
  ((wc.zip wo).zip wv).all (fun x => evalOp x.1.2 (lookupD r x.1.1) x.2)

/-- `columns` argument of `select_records`: a Python string or list. -/
inductive ColumnsArg where
  | strArg (s : String)
  | listArg (cs : List String)
deriving DecidableEq, Repr

/-- ASCII whitespace, as Python `str.strip` removes it. -/
def isSpaceC (c : Char) : Bool :=
  c = ' ' || c = '\t' || c = '\n' || c = '\r'

/-- Python `s.strip()` over the character list. -/
def stripChars (l : List Char) : List Char :=
  ((l.dropWhile isSpaceC).reverse.dropWhile isSpaceC).reverse

/-- Python `s.split(",")` over the character list. -/
def splitCommaAux : List Char → List Char → List (List Char)
  | [], acc => [acc.reverse]
  | c :: rest, acc =>
    if c = ',' then acc.reverse :: splitCommaAux rest []
    else splitCommaAux rest (c :: acc)

def splitComma (l : List Char) : List (List Char) := splitCommaAux l []

/-- Normalization of the `columns` argument (database.py:191-199): a list
is used as is; the string `*` (after strip) selects everything; any other
string is split on commas and each part stripped.  `none` means `*`. -/
def normalizeCols : ColumnsArg → Option (List String)
  | .listArg cs => some cs
  | .strArg s =>
    if stripChars s.data = ['*'] then none
    else some ((splitComma s.data).map (fun l => String.mk (stripChars l)))

/-- Projection of a full row onto a selected column list. -/
def projectRow (cs : List String) (r : Row) : Row :=
  cs.map (fun c => (c, lookupD r c))

/-- `Database.select_records` (database.py:172-235).  `None` for the three
WHERE lists is modelled as `[]`; the truthiness test `if where_columns:`
treats both alike.  With a WHERE clause the three lists must have equal
length. -/
def select_records (ts : TableSchema) (st : TableState) (columns : ColumnsArg)
    (wc wo : List String) (wv : List Value) : Except DBError (List Row) :=
  let sel := normalizeCols columns
  let selOk : Bool := match sel with
    | none => true
    | some cs => cs.all (fun c => memB c ts.columns)
  if wc ≠ [] then
    if wc.length = wo.length ∧ wo.length = wv.length then
      if selOk && wc.all (fun c => memB c ts.columns) then
        let rows := st.rows.filter (rowWhere wc wo wv)
        .ok (match sel with
          | none => rows
          | some cs => rows.map (projectRow cs))
      else .error .undefinedColumn
    else .error .predicateShapeMismatch
  else
    if selOk then
      .ok (match sel with
        | none => st.rows
        | some cs => st.rows.map (projectRow cs))
    else .error .undefinedColumn

/-- Apply `SET c1 = v1, c2 = v2, ...` to one full row. -/
def applySet (cols : List String) (vals : List Value) (r : Row) : Row :=
  (cols.zip vals).foldl
    (fun acc cv => acc.map (fun kv => if kv.1 = cv.1 then (kv.1, cv.2) else kv)) r

/-- `Database.update_records` (database.py:237-299): requires
`len(columns) == len(values)`; with any WHERE argument the three lists must
have equal length; produces `UPDATE ... RETURNING *`, so the updated rows
are returned and an absent WHERE clause updates every row. -/
def update_records (ts : TableSchema) (st : TableState)
    (columns : List String) (values : List Value)
    (wc wo : List String) (wv : List Value) :
    Except DBError (List Row × TableState) :=
  if columns.length ≠ values.length then .error .setShapeMismatch
  else if (wc ≠ [] ∨ wo ≠ [] ∨ wv ≠ []) ∧
      ¬(wc.length = wo.length ∧ wo.length = wv.length) then
    .error .predicateShapeMismatch
  else if columns.all (fun c => memB c ts.columns) &&
      wc.all (fun c => memB c ts.columns) then
    let touched := fun r => if wc ≠ [] then rowWhere wc wo wv r else true
    let newRows := st.rows.map (fun r => if touched r then applySet columns values r else r)
    .ok ((st.rows.filter touched).map (applySet columns values), ⟨newRows, st.nextId⟩)
  else .error .undefinedColumn

/-- `Database.delete_records` (database.py:301-352): with no WHERE argument
at all it raises `ValueError` (`DELETE without WHERE clause is not allowed
for safety`) before composing any statement; with one, the three lists must
have equal length, and the matching rows are removed and returned. -/
def delete_records (ts : TableSchema) (st : TableState)
    (wc wo : List String) (wv : List Value) :
    Except DBError (List Row × TableState) :=
  if wc ≠ [] ∨ wo ≠ [] ∨ wv ≠ [] then
    if wc.length = wo.length ∧ wo.length = wv.length then
      if wc.all (fun c => memB c ts.columns) then
        .ok (st.rows.filter (rowWhere wc wo wv),
          ⟨st.rows.filter (fun r => !rowWhere wc wo wv r), st.nextId⟩)
      else .error .undefinedColumn
    else .error .predicateShapeMismatch
  else .error .deleteNoWhere

/-- The `id` argument of the by-primary-key operations: a Python scalar or
list. -/
inductive IdArg where
  | scalar (v : Value)
  | vec (vs : List Value)
deriving DecidableEq, Repr

/-- `Database.select_record_by_id` (database.py:354-392): resolves the
primary key, then runs `SELECT * FROM t WHERE id_col = %s`.  When the
resolver returns a *list* (composite key), `sql.Identifier(id_col)` raises
`TypeError` — composite keys do not work through this path.  A list `id`
against a single-column key is adapted to an SQL array and the engine
rejects the comparison. -/
def select_record_by_id (ts : TableSchema) (st : TableState) (idv : IdArg) :
    Except DBError (Option Row) :=
  match get_primary_key_column ts with
  | .error e => .error e
  | .ok (.composite _) => .error .pyTypeError
  | .ok (.single c) =>
    match idv with
    | .vec _ => .error .storeTypeMismatch
    | .scalar v =>
      if memB c ts.columns then
        .ok (st.rows.find? (fun r => decide (lookupD r c = v)))
      else .error .undefinedColumn

/-- `Database.update_record_by_id` (database.py:394-449): resolve the
primary key, require the row to exist (`RecordNotFound` otherwise), accept
exactly one of the two patch forms, drop `_`-prefixed columns, require a
non-empty remaining patch, then update through `update_records` keyed on
the primary-key column. -/
def update_record_by_id (ts : TableSchema) (st : TableState) (idv : IdArg)
    (dict_new_values : Option Row)
    (columns : Option (List String)) (new_values : Option (List Value)) :
    Except DBError (Option Row × TableState) :=
  match get_primary_key_column ts with
  | .error e => .error e
  | .ok pk =>
    match select_record_by_id ts st idv with
    | .error e => .error e
    | .ok none => .error .recordNotFound
    | .ok (some _) =>
      let patch : Except DBError Row :=
        match dict_new_values with
        | some d =>
          if columns.getD [] ≠ [] ∨ new_values.getD [] ≠ [] then .error .bothPatchForms
          else .ok d
        | none =>
          match columns, new_values with
          | some cs, some vs =>
            if cs.length ≠ vs.length then .error .patchShapeMismatch
            else .ok (dictOfPairs (cs.zip vs))
          | _, _ => .error .missingPatch
      match patch with
      | .error e => .error e
      | .ok d =>
        let d2 := d.filter (fun kv => !isPrivateName kv.1)
        if d2.isEmpty then .error .noUpdatableColumns
        else
          match pk, idv with
          | .single c, .scalar v =>
            match update_records ts st (d2.map Prod.fst) (d2.map Prod.snd)
                [c] ["="] [v] with
            | .error e => .error e
            | .ok (rows, st2) => .ok (rows.head?, st2)
          | _, _ => .error .pyTypeError

/-- One row against the equality-ANDed conditions of a unique lookup. -/
def condsMatch (conds : Row) (r : Row) : Bool :=
  conds.all (fun cv => decide (lookupD r cv.1 = cv.2))

/-- `Database.select_unique_record` (database.py:453-512): at least one
condition is required; every condition is an equality, ANDed; zero matches
return `None`, more than one raise `ValueError` (`AmbiguousResult`), one is
returned. -/
def select_unique_record (ts : TableSchema) (st : TableState) (conds : Row) :
    Except DBError (Option Row) :=
  if conds.isEmpty then .error .emptyConditions
  else if conds.all (fun cv => memB cv.1 ts.columns) then
    match st.rows.filter (condsMatch conds) with
    | [] => .ok none
    | [r] => .ok (some r)
    | _ => .error .ambiguousResult
  else .error .undefinedColumn

/-! ## Record lifecycle layer (`src/src/orm/base.py`) -/

/-- The schema metadata a `BaseORMModel` subclass declares: `table_columns`
and `table_id` (the list-typed class attributes; `table_name` selects the
table, which the embedding fixes by the schema/state pair passed to each
operation). -/
structure EntitySchema where
  table_columns : List String
  table_id : List String
deriving DecidableEq, Repr

/-- One declaration error per `raise` in `__init_subclass__`. -/
inductive DeclError where
  | missingTableColumns
  | privateColumn (c : String)
  | idNotInColumns (c : String)
deriving DecidableEq, Repr

/-- `BaseORMModel.__init_subclass__` (base.py:43-69): `table_columns` must
be a non-empty list (Python truthiness) of strings none of which starts
with `_`; `table_id` must be a list/tuple each of whose elements is a
member of `table_columns`.  The isinstance checks are enforced by the Lean
types. -/
def init_subclass (cols ids : List String) : Except DeclError Unit :=
  if cols.isEmpty then .error .missingTableColumns
  else
    match cols.find? (fun c => isPrivateName c) with
    | some c => .error (.privateColumn c)
    | none =>
      match ids.find? (fun k => !memB k cols) with
      | some k => .error (.idNotInColumns k)
      | none => .ok ()

/-- An in-memory model instance: its attribute dict restricted to the
ORM-visible (column-named) attributes, plus the `_is_dumped` lifecycle
flag. -/
structure Entity where
  fields : Row
  is_dumped : Bool
deriving DecidableEq, Repr

/-- `getattr(self, c, None)`. -/
def getattrE (e : Entity) (c : String) : Value :=
  lookupD e.fields c

/-- `setattr(self, c, v)`. -/
def setattrE (e : Entity) (c : String) (v : Value) : Entity :=
  ⟨dictInsert e.fields c v, e.is_dumped⟩

/-- `BaseORMModel.ignored_columns_in_dict_record` (base.py:39). -/
def ignored_columns_in_dict_record : List String := ["updated_at", "created_at"]

/-- `BaseORMModel.__init__` (base.py:71-98): `_is_dumped = False`; when the
entity declares `created_at` it is popped from the kwargs with default
"now"; when it declares `updated_at` it is popped with default `None`; any
remaining kwarg must name a declared column (`ValueError` otherwise) and is
assigned.  A failing construction discards the partially-initialized
object, so the embedding returns only the error. -/
def initStep1 (s : EntitySchema) (kwargs : Row) (nowT : Value) : Entity × Row :=
  if memB "created_at" s.table_columns then
    (setattrE ⟨[], false⟩ "created_at" ((lookupR kwargs "created_at").getD nowT),
     kwargs.filter (fun kv => kv.1 ≠ "created_at"))
  else (⟨[], false⟩, kwargs)

def initStep2 (s : EntitySchema) (kwargs : Row) (nowT : Value) : Entity × Row :=
  if memB "updated_at" s.table_columns then
    (setattrE (initStep1 s kwargs nowT).1 "updated_at"
      ((lookupR (initStep1 s kwargs nowT).2 "updated_at").getD .null),
     (initStep1 s kwargs nowT).2.filter (fun kv => kv.1 ≠ "updated_at"))
  else initStep1 s kwargs nowT

def initEntity (s : EntitySchema) (kwargs : Row) (nowT : Value) :
    Except DBError Entity :=
  if (initStep2 s kwargs nowT).2.all (fun kv => memB kv.1 s.table_columns) then
    .ok ((initStep2 s kwargs nowT).2.foldl
      (fun e kv => setattrE e kv.1 kv.2) (initStep2 s kwargs nowT).1)
  else .error .unknownColumn

/-- `BaseORMModel.dict_record` (base.py:170-192): every declared column
outside the ignore list, mapped to `getattr(self, col, None)`. -/
def dict_record (s : EntitySchema) (e : Entity) : Row :=
  (s.table_columns.filter
    (fun c => !memB c ignored_columns_in_dict_record)).map
    (fun c => (c, getattrE e c))

/-- `BaseORMModel.pk` (base.py:243-249): the list of primary-key attribute
values. -/
def pkVals (s : EntitySchema) (e : Entity) : List Value :=
  s.table_id.map (fun c => getattrE e c)

/-- The field snapshot minus the primary-key columns — the conditions
`record_exists` passes to `select_unique_record` and the payload `dump`
inserts. -/
def snapshotNoPk (s : EntitySchema) (e : Entity) : Row :=
  (dict_record s e).filter (fun kv => !memB kv.1 s.table_id)

/-- Python truthiness of an optional row (`bool(record)`). -/
def rowTruthy : Option Row → Bool
  | none => false
  | some r => !r.isEmpty

/-- `BaseORMModel.record_exists` (base.py:215-241): strip the primary-key
columns from `dict_record` and ask `select_unique_record`; the result's
truthiness is returned. -/
def record_exists (s : EntitySchema) (ts : TableSchema) (st : TableState)
    (e : Entity) : Except DBError Bool :=
  match select_unique_record ts st (snapshotNoPk s e) with
  | .error er => .error er
  | .ok r => .ok (rowTruthy r)

/-- `dict[k]` with `KeyError`. -/
def getItem (r : Row) (k : String) : Except DBError Value :=
  match lookupR r k with
  | some v => .ok v
  | none => .error .keyError

/-- Sequential mapping that stops at the first raised error (a Python
loop/list comprehension). -/
def mapE (f : α → Except DBError β) : List α → Except DBError (List β)
  | [] => .ok []
  | a :: l =>
    match f a with
    | .error e => .error e
    | .ok b =>
      match mapE f l with
      | .error e => .error e
      | .ok bs => .ok (b :: bs)

/-- `dump`'s insert payload (base.py:299-300): `dict_record` restricted to
declared non-primary-key columns. -/
def dumpPayload (s : EntitySchema) (e : Entity) : Row :=
  (dict_record s e).filter
    (fun kv => memB kv.1 s.table_columns && !memB kv.1 s.table_id)

/-- The column list `dump` inserts (base.py:311-316): the payload's keys,
with `created_at` appended when the entity declares it. -/
def dumpInsCols (s : EntitySchema) (e : Entity) : List String :=
  if memB "created_at" s.table_columns then
    (dumpPayload s e).map Prod.fst ++ ["created_at"]
  else (dumpPayload s e).map Prod.fst

/-- The value list `dump` inserts: the payload's values, with the
instance's `created_at` appended when the entity declares it. -/
def dumpInsVals (s : EntitySchema) (e : Entity) : List Value :=
  if memB "created_at" s.table_columns then
    (dumpPayload s e).map Prod.snd ++ [getattrE e "created_at"]
  else (dumpPayload s e).map Prod.snd

/-- `BaseORMModel.dump` (base.py:251-331).  With `force=False` and an
existing value-equal row: re-resolve that row through
`select_unique_record`, copy its primary-key values onto the instance and
return them without inserting.  Otherwise: append the instance's
`created_at` when declared, insert, set `_is_dumped = True`, copy the
returned primary-key values onto the instance and return them in declared
key order. -/
def dump (s : EntitySchema) (ts : TableSchema) (st : TableState)
    (e : Entity) (force : Bool) :
    Except DBError (List Value × Entity × TableState) :=
  match (if force then .ok false else record_exists s ts st e :
      Except DBError Bool) with
  | .error er => .error er
  | .ok exFlag =>
    if !force && exFlag then
      match select_unique_record ts st (dumpPayload s e) with
      | .error er => .error er
      | .ok none => .error .pyTypeError
      | .ok (some record) =>
        match mapE (getItem record) s.table_id with
        | .error er => .error er
        | .ok vals =>
          .ok (vals,
            s.table_id.foldl
              (fun acc c => setattrE acc c (lookupD record c)) e,
            st)
    else
      match insert_record ts st (dumpInsCols s e) (dumpInsVals s e) with
      | .error er => .error er
      | .ok (record, st2) =>
        match mapE (getItem record) s.table_id with
        | .error er => .error er
        | .ok vals =>
          .ok (vals,
            s.table_id.foldl
              (fun acc c => setattrE acc c (lookupD record c))
              ⟨e.fields, true⟩,
            st2)

/-- The `columns` parameter of `update`: `"*"`, a list, or anything else
(which `update` rejects). -/
inductive ColsParam where
  | star
  | listP (cs : List String)
  | other
deriving DecidableEq, Repr

/-- The `update_dict` built by `BaseORMModel.update` (base.py:354-375):
from `dict_record` minus the key columns for `"*"`, from the validated
column list (values read from `dict_record`, `KeyError` on ignored
columns) for a list, `ValueError` otherwise; then `updated_at` is set to
"now" when the entity declares that column. -/
def updateDictOf (s : EntitySchema) (e : Entity) (colsArg : ColsParam)
    (nowT : Value) : Except DBError Row :=
  let dr := (dict_record s e).filter
    (fun kv => memB kv.1 s.table_columns && !memB kv.1 s.table_id)
  let pairs : Except DBError (List (String × Value)) :=
    match colsArg with
    | .star => .ok dr
    | .listP cs =>
      mapE (fun c =>
        if !memB c s.table_columns then .error .invalidColumn
        else match getItem (dict_record s e) c with
          | .error er => .error er
          | .ok v => .ok (c, v)) cs
    | .other => .error .invalidColumnsParam
  match pairs with
  | .error er => .error er
  | .ok ps =>
    let d := dictOfPairs ps
    .ok (if memB "updated_at" s.table_columns then
      dictInsert d "updated_at" nowT else d)

/-- `BaseORMModel.update` (base.py:333-384): build the update dict, call
`update_record_by_id` on `self.pk[0]`, then execute the write-back
`self.updated_at = updated_at`.  The local `updated_at` is bound only when
the entity declares that column, so for every other entity the write-back
raises `UnboundLocalError` *after* the store-side update has executed; the
pair returned here carries the store state alongside the outcome so that
this post-update failure is observable. -/
def update (s : EntitySchema) (ts : TableSchema) (st : TableState)
    (e : Entity) (colsArg : ColsParam) (nowT : Value) :
    TableState × Except DBError (List Value × Entity) :=
  match updateDictOf s e colsArg nowT with
  | .error er => (st, .error er)
  | .ok d =>
    match pkVals s e with
    | [] => (st, .error .indexError)
    | p :: _ =>
      match update_record_by_id ts st (.scalar p) (some d) none none with
      | .error er => (st, .error er)
      | .ok (_, st2) =>
        if memB "updated_at" s.table_columns then
          let e2 := setattrE e "updated_at" nowT
          (st2, .ok (pkVals s e2, e2))
        else (st2, .error .unboundLocal)

/-- `BaseORMModel.from_id_in_database` (base.py:387-439): checks key arity,
rejects composite keys (`NotImplementedError`), resolves the row through
`select_record_by_id` (`ValueError` when absent), then builds the instance
directly — every declared column gets `record.get(col)` — and marks it
`_is_dumped = True`. -/
def from_id_in_database (s : EntitySchema) (ts : TableSchema)
    (st : TableState) (record_id : List Value) : Except DBError Entity :=
  if record_id.length ≠ s.table_id.length then .error .keyArityMismatch
  else if s.table_id.length ≠ 1 then .error .compositeKeyNotImplemented
  else
    match record_id with
    | [] => .error .indexError
    | rid :: _ =>
      match select_record_by_id ts st (.scalar rid) with
      | .error er => .error er
      | .ok none => .error .recordNotFound
      | .ok (some record) =>
        if record.isEmpty then .error .recordNotFound
        else
          .ok ⟨(s.table_columns.foldl
            (fun acc c => setattrE acc c (lookupD record c))
            ⟨[], false⟩).fields, true⟩

/-- `BaseORMModel.all` (base.py:153-167): select every row of the table and
rebuild one instance per row through the normal constructor
(`cls(**record)`), not through `from_id_in_database`. -/
def allModels (s : EntitySchema) (ts : TableSchema) (st : TableState)
    (nowT : Value) : Except DBError (List Entity) :=
  match select_records ts st (.strArg "*") [] [] [] with
  | .error er => .error er
  | .ok rows => mapE (fun r => initEntity s r nowT) rows

/-! ## Concrete instances from the repository

The `sites` table and `Site` model (ORMModels.py:8-22, conftest schema),
the `table_1` / `joint_table1_table2` test tables
(tests/test_orm/models_for_test.py), and the `CarSnapshot` declaration
(ORMModels.py:308-328). -/

def sitesTS : TableSchema :=
  ⟨["site_id", "name", "base_url", "updated_at", "created_at"],
   ["site_id"], some "site_id"⟩

def siteES : EntitySchema :=
  ⟨["site_id", "name", "base_url", "updated_at", "created_at"], ["site_id"]⟩

def table1TS : TableSchema :=
  ⟨["t1_id", "name_t1"], ["t1_id"], some "t1_id"⟩

def table1ES : EntitySchema :=
  ⟨["t1_id", "name_t1"], ["t1_id"]⟩

def jointTS : TableSchema :=
  ⟨["t1_id", "t2_id"], ["t1_id", "t2_id"], none⟩

def carSnapshotColumns : List String :=
  ["scrape_id", "car_id", "labels", "price"]

/-- Whether an ORM-level outcome is a normal return. -/
def isOkE : Except DBError (List Value × Entity) → Bool
  | .ok _ => true
  | .error _ => false

/-- The column list underlying the field snapshot minus the primary key:
declared columns outside the ignore list and outside `table_id`. -/
def snapKeys (s : EntitySchema) : List String :=
  (s.table_columns.filter
    (fun c => !memB c ignored_columns_in_dict_record)).filter
    (fun c => !memB c s.table_id)

/-! Concrete rows and states used to instantiate the theorems. -/

def rowSolo : Row :=
  [("site_id", .int 1), ("name", .str "solo"), ("base_url", .str "s"),
   ("updated_at", .null), ("created_at", .null)]

def rowDupe1 : Row :=
  [("site_id", .int 2), ("name", .str "dupe"), ("base_url", .str "d"),
   ("updated_at", .null), ("created_at", .null)]

def rowDupe2 : Row :=
  [("site_id", .int 3), ("name", .str "dupe"), ("base_url", .str "d"),
   ("updated_at", .null), ("created_at", .null)]

def stW : TableState := ⟨[rowSolo, rowDupe1, rowDupe2], 4⟩

def stW1 : TableState := ⟨[rowSolo], 2⟩

/-- The instance `allModels` rebuilds from `rowSolo` (constructor order:
`created_at`, `updated_at`, then the remaining row fields). -/
def eW : Entity :=
  ⟨[("created_at", .null), ("updated_at", .null), ("site_id", .int 1),
    ("name", .str "solo"), ("base_url", .str "s")], false⟩

/-- The instance `from_id_in_database` rebuilds from `rowSolo` (declared
column order, `_is_dumped = True`). -/
def entW : Entity :=
  ⟨[("site_id", .int 1), ("name", .str "solo"), ("base_url", .str "s"),
    ("updated_at", .null), ("created_at", .null)], true⟩

def t1Row : Row := [("t1_id", .int 1), ("name_t1", .str "a")]

def t1St : TableState := ⟨[t1Row], 2⟩

def t1Ent : Entity := ⟨[("t1_id", .int 1), ("name_t1", .str "b")], true⟩

def siteRowW : Row :=
  [("site_id", .int 1), ("name", .str "a"), ("base_url", .str "b"),
   ("updated_at", .null), ("created_at", .time 3)]

def siteStW : TableState := ⟨[siteRowW], 2⟩

def siteEntW : Entity :=
  ⟨[("site_id", .int 1), ("name", .str "a2"), ("base_url", .str "b")], true⟩

/-- A transient `Site` instance (`Site(name=..., base_url=...)` with a
caller-supplied creation time). -/
def e1W : Entity :=
  ⟨[("name", .str "site1"), ("base_url", .str "u1"), ("created_at", .time 3)],
   false⟩

/-! ## Basic lemmas about the list/dict helpers -/

theorem memB_iff (c : String) (l : List String) : memB c l = true ↔ c ∈ l := by
  simp [memB, List.any_eq_true]

theorem memB_eq_false (c : String) (l : List String) :
    memB c l = false ↔ c ∉ l := by
  rw [← memB_iff c l]; cases memB c l <;> simp

theorem lookupR_map_pair (l : List String) (f : String → Value) (c : String)
    (h : c ∈ l) : lookupR (l.map (fun x => (x, f x))) c = some (f c) := by
  induction l with
  | nil => cases h
  | cons a l ih =>
    by_cases hac : a = c
    · subst hac; simp [lookupR]
    · have : c ∈ l := by
        rcases List.mem_cons.mp h with h1 | h1
        · exact absurd h1.symm hac
        · exact h1
      simp [lookupR, hac, ih this]

theorem lookupR_eq_none (r : Row) (c : String) (h : c ∉ r.map Prod.fst) :
    lookupR r c = none := by
  induction r with
  | nil => rfl
  | cons kv r ih =>
    simp only [List.map_cons, List.mem_cons] at h
    push_neg at h
    simp [lookupR, Ne.symm h.1, ih h.2]

theorem lookupR_append_left (xs ys : Row) (c : String) (v : Value)
    (h : lookupR xs c = some v) : lookupR (xs ++ ys) c = some v := by
  induction xs with
  | nil => cases h
  | cons kv xs ih =>
    by_cases hkc : kv.1 = c
    · simp [lookupR, hkc] at h ⊢; simpa [lookupR, hkc] using h
    · simp [lookupR, hkc] at h ⊢; exact ih h

theorem lookupR_append_right (xs ys : Row) (c : String)
    (h : lookupR xs c = none) : lookupR (xs ++ ys) c = lookupR ys c := by
  induction xs with
  | nil => rfl
  | cons kv xs ih =>
    by_cases hkc : kv.1 = c
    · simp [lookupR, hkc] at h
    · simp [lookupR, hkc] at h ⊢; exact ih h

theorem zip_fst_snd (l : List (String × Value)) :
    (l.map Prod.fst).zip (l.map Prod.snd) = l := by
  induction l with
  | nil => rfl
  | cons kv l ih => simp [ih]

theorem zip_append_pair (l : List (String × Value)) (a : String) (b : Value) :
    (l.map Prod.fst ++ [a]).zip (l.map Prod.snd ++ [b]) = l ++ [(a, b)] := by
  induction l with
  | nil => rfl
  | cons kv l ih => simp [ih]

theorem filter_map_pair (l : List String) (f : String → Value)
    (p : String → Bool) :
    (l.map (fun c => (c, f c))).filter (fun kv => p kv.1)
      = (l.filter p).map (fun c => (c, f c)) := by
  induction l with
  | nil => rfl
  | cons a l ih =>
    by_cases h : p a = true <;> simp [List.filter_cons, h, ih]

theorem map_fst_map_pair (l : List String) (f : String → Value) :
    (l.map (fun c => (c, f c))).map Prod.fst = l := by
  induction l with
  | nil => rfl
  | cons a l ih => simp [ih]

theorem dictInsert_fresh (m : Row) (k : String) (v : Value)
    (h : ∀ kv ∈ m, kv.1 ≠ k) : dictInsert m k v = m ++ [(k, v)] := by
  have : m.any (fun kv => decide (kv.1 = k)) = false := by
    rw [List.any_eq_false]
    intro kv hkv
    simpa using h kv hkv
  simp [dictInsert, this]

theorem foldl_dictInsert_fresh (l m : Row)
    (hl : (l.map Prod.fst).Nodup)
    (hdisj : ∀ kv ∈ m, ∀ kv2 ∈ l, kv.1 ≠ kv2.1) :
    l.foldl (fun acc kv => dictInsert acc kv.1 kv.2) m = m ++ l := by
  induction l generalizing m with
  | nil => simp
  | cons kv l ih =>
    simp only [List.foldl_cons]
    rw [dictInsert_fresh m kv.1 kv.2
      (fun kv2 hkv2 => hdisj kv2 hkv2 kv (List.mem_cons_self _ _))]
    rw [ih (m ++ [(kv.1, kv.2)])]
    · simp
    · exact (List.nodup_cons.mp (by simpa using hl)).2
    · intro kv2 hkv2 kv3 hkv3
      rcases List.mem_append.mp hkv2 with h2 | h2
      · exact hdisj kv2 h2 kv3 (List.mem_cons_of_mem _ hkv3)
      · have hkv2e : kv2 = (kv.1, kv.2) := by simpa using h2
        subst hkv2e
        have hnotin : kv.1 ∉ l.map Prod.fst :=
          (List.nodup_cons.mp (by simpa using hl)).1
        intro hcontra
        exact hnotin (by
          rw [hcontra]
          exact List.mem_map.mpr ⟨kv3, hkv3, rfl⟩)

theorem dictOfPairs_eq_self (l : Row) (h : (l.map Prod.fst).Nodup) :
    dictOfPairs l = l := by
  have := foldl_dictInsert_fresh l [] h (by simp)
  simpa [dictOfPairs] using this

theorem zip_take_eq {α β : Type} (xs : List α) (ys : List β) :
    xs.zip ys = (xs.take ys.length).zip (ys.take xs.length) := by
  induction xs generalizing ys with
  | nil => simp
  | cons a l ih =>
    cases ys with
    | nil => simp
    | cons b m => simp [ih m]

/-! ## Claim theorems -/

/-- C2: `delete_records` called with no predicate at all fails with the
unconditional-delete rejection for every table and every store state,
before any statement is composed; no new store state is produced, so the
store is unchanged. -/
theorem delete_records_no_predicate_rejected (ts : TableSchema)
    (st : TableState) :
    delete_records ts st [] [] [] = .error .deleteNoWhere := rfl

/-- C8: `get_primary_key_column` fails with the no-primary-key error when
the catalog reports zero key rows, returns the bare column name for exactly
one row, and returns the ordered column list (catalog order) for several
rows. -/
theorem get_primary_key_column_contract (ts : TableSchema) :
    (ts.pkCols = [] → get_primary_key_column ts = .error .noPrimaryKey) ∧
    (∀ c, ts.pkCols = [c] → get_primary_key_column ts = .ok (.single c)) ∧
    (∀ c1 c2 rest, ts.pkCols = c1 :: c2 :: rest →
      get_primary_key_column ts = .ok (.composite (c1 :: c2 :: rest))) := by
  refine ⟨fun h => ?_, fun c h => ?_, fun c1 c2 rest h => ?_⟩ <;>
    simp [get_primary_key_column, h]

theorem get_primary_key_column_contract_witness :
    get_primary_key_column ⟨["a"], [], none⟩ = .error .noPrimaryKey ∧
    get_primary_key_column sitesTS = .ok (.single "site_id") ∧
    get_primary_key_column jointTS = .ok (.composite ["t1_id", "t2_id"]) :=
  ⟨(get_primary_key_column_contract _).1 rfl,
   (get_primary_key_column_contract _).2.1 _ rfl,
   (get_primary_key_column_contract _).2.2 _ _ _ rfl⟩

/-- C5 counterexample: the `CarSnapshot` declaration — a valid column list
with an *empty* `table_id` — is accepted by `__init_subclass__`, although
the claim requires an empty primary key to be rejected at declaration
time. -/
theorem init_subclass_accepts_empty_primary_key :
    init_subclass carSnapshotColumns [] = .ok () := rfl

/-- `__init_subclass__` acceptance, characterized. -/
theorem init_subclass_iff (cols ids : List String) :
    init_subclass cols ids = .ok () ↔
      cols ≠ [] ∧ (∀ c ∈ cols, isPrivateName c = false) ∧
        ∀ k ∈ ids, k ∈ cols := by
  unfold init_subclass
  by_cases hemp : cols.isEmpty
  · simp [hemp, List.isEmpty_iff.mp hemp]
  · rw [if_neg hemp]
    have hcne : cols ≠ [] := by
      intro h; rw [h] at hemp; exact hemp rfl
    cases hfind : cols.find? (fun c => isPrivateName c) with
    | some c =>
      have h1 : isPrivateName c = true := List.find?_some hfind
      have h2 : c ∈ cols := List.mem_of_find?_eq_some hfind
      simp only [hfind]
      constructor
      · intro h; cases h
      · rintro ⟨-, hpriv, -⟩
        rw [hpriv c h2] at h1
        cases h1
    | none =>
      have hpriv : ∀ c ∈ cols, isPrivateName c = false := by
        intro c hc
        have := (List.find?_eq_none.mp hfind) c hc
        cases hb : isPrivateName c
        · rfl
        · exact absurd hb this
      cases hfind2 : ids.find? (fun k => !memB k cols) with
      | some k =>
        have h1 := List.find?_some hfind2
        have h2 : k ∈ ids := List.mem_of_find?_eq_some hfind2
        simp only [hfind, hfind2]
        constructor
        · intro h; cases h
        · rintro ⟨-, -, hids⟩
          have := (memB_iff k cols).mpr (hids k h2)
          rw [this] at h1
          cases h1
      | none =>
        have hids : ∀ k ∈ ids, k ∈ cols := by
          intro k hk
          have := (List.find?_eq_none.mp hfind2) k hk
          have hb : memB k cols = true := by
            cases hmb : memB k cols
            · rw [hmb] at this; simp at this
            · rfl
          exact (memB_iff k cols).mp hb
        simp only [hfind, hfind2]
        constructor
        · intro _; exact ⟨hcne, hpriv, hids⟩
        · intro _; trivial

/-- C5 (amended): a declaration succeeds exactly when `table_columns` is
non-empty, free of private-marker columns, and every `table_id` element is
a member of `table_columns`; the non-emptiness of `table_id` itself is not
checked, so an empty primary key passes. -/
theorem init_subclass_contract (cols ids : List String) :
    init_subclass cols ids = .ok () ↔
      cols ≠ [] ∧ (∀ c ∈ cols, isPrivateName c = false) ∧
        ∀ k ∈ ids, k ∈ cols :=
  init_subclass_iff cols ids

theorem init_subclass_contract_witness :
    init_subclass carSnapshotColumns ["scrape_id", "car_id"] = .ok () :=
  (init_subclass_contract _ _).mpr (by decide)

/-- C3 counterexample: `insert_record` with two columns and one value is
*not* rejected — the `zip` pairing silently drops `base_url`, and the
insert executes with `name` alone, the store defaulting the rest.  The
claim requires this call to fail. -/
theorem insert_record_length_mismatch_not_rejected :
    insert_record sitesTS ⟨[], 1⟩ ["name", "base_url"] [.str "sitio1"] =
      .ok ([("site_id", .int 1), ("name", .str "sitio1"), ("base_url", .null),
            ("updated_at", .null), ("created_at", .null)],
           ⟨[[("site_id", .int 1), ("name", .str "sitio1"), ("base_url", .null),
              ("updated_at", .null), ("created_at", .null)]], 2⟩) := rfl

/-- C3 (amended): `insert_record` performs no length validation at all —
the record is built from `zip(columns, values)`, which truncates both lists
to the shorter length, so the call behaves exactly as if the excess
columns/values had not been passed. -/
theorem insert_record_truncates (ts : TableSchema) (st : TableState)
    (cols : List String) (vals : List Value) :
    insert_record ts st cols vals
      = insert_record ts st (cols.take vals.length) (vals.take cols.length) := by
  unfold insert_record
  rw [← zip_take_eq]

/-- C4: the code contradicts the claim (and its own test
`test_select_record_by_id_with_composite_primary_key`, carrying a
commented-out "Not fixed" skip marker): for the two-column-key
`joint_table1_table2` table, inserting a row succeeds, but
`select_record_by_id` with the two key values in declared order raises
`TypeError` — `sql.Identifier` receives the resolver's column *list* —
instead of returning the row. -/
theorem select_record_by_id_composite_key_type_error :
    insert_record jointTS ⟨[], 1⟩ ["t1_id", "t2_id"] [.int 1, .int 2] =
      .ok ([("t1_id", .int 1), ("t2_id", .int 2)],
           ⟨[[("t1_id", .int 1), ("t2_id", .int 2)]], 1⟩) ∧
    select_record_by_id jointTS ⟨[[("t1_id", .int 1), ("t2_id", .int 2)]], 1⟩
      (.vec [.int 1, .int 2]) = .error .pyTypeError :=
  ⟨rfl, rfl⟩

/-- C6: `select_unique_record` with no condition fails with the
empty-conditions error; with conditions (on existing columns), it ANDs
them as equalities over the store and returns nothing on zero matches, the
row on exactly one match, and fails with the ambiguous-result error on
more than one match — it never returns more than one row. -/
theorem select_unique_record_contract (ts : TableSchema) (st : TableState)
    (conds : Row) (hcols : ∀ cv ∈ conds, cv.1 ∈ ts.columns) :
    (conds = [] → select_unique_record ts st conds = .error .emptyConditions) ∧
    (conds ≠ [] →
      (st.rows.filter (condsMatch conds) = [] →
        select_unique_record ts st conds = .ok none) ∧
      (∀ r, st.rows.filter (condsMatch conds) = [r] →
        select_unique_record ts st conds = .ok (some r)) ∧
      (1 < (st.rows.filter (condsMatch conds)).length →
        select_unique_record ts st conds = .error .ambiguousResult)) := by
  have hall : conds.all (fun cv => memB cv.1 ts.columns) = true := by
    rw [List.all_eq_true]
    intro cv hcv
    exact (memB_iff _ _).mpr (hcols cv hcv)
  refine ⟨fun h => ?_, fun hne => ?_⟩
  · subst h; rfl
  · have hie : conds.isEmpty = false := by
      cases conds
      · exact absurd rfl hne
      · rfl
    refine ⟨fun h0 => ?_, fun r hr => ?_, fun h2 => ?_⟩
    · simp [select_unique_record, hie, hall, h0]
    · simp [select_unique_record, hie, hall, hr]
    · obtain ⟨a, b, l, hl⟩ :
          ∃ a b l, st.rows.filter (condsMatch conds) = a :: b :: l := by
        cases hf : st.rows.filter (condsMatch conds) with
        | nil => rw [hf] at h2; simp at h2
        | cons a tl =>
          cases tl with
          | nil => rw [hf] at h2; simp at h2
          | cons b l => exact ⟨a, b, l, rfl⟩
      simp [select_unique_record, hie, hall, hl]

theorem select_unique_record_contract_witness :
    select_unique_record sitesTS stW [] = .error .emptyConditions ∧
    select_unique_record sitesTS stW [("name", .str "nope")] = .ok none ∧
    select_unique_record sitesTS stW [("name", .str "solo")] =
      .ok (some rowSolo) ∧
    select_unique_record sitesTS stW [("name", .str "dupe")] =
      .error .ambiguousResult :=
  ⟨(select_unique_record_contract sitesTS stW [] (by simp)).1 rfl,
   ((select_unique_record_contract sitesTS stW [("name", .str "nope")]
      (by decide)).2 (by decide)).1 (by decide),
   ((select_unique_record_contract sitesTS stW [("name", .str "solo")]
      (by decide)).2 (by decide)).2.1 rowSolo (by decide),
   ((select_unique_record_contract sitesTS stW [("name", .str "dupe")]
      (by decide)).2 (by decide)).2.2 (by decide)⟩

/-- C7: `update_record_by_id` resolves the row first and fails with the
record-not-found error when no row exists at the key; on an existing key,
a patch that is empty after dropping the private-marker columns fails with
the no-updatable-columns error, and supplying both the mapping and the
parallel-lists patch forms in one call is an error. -/
theorem update_record_by_id_contract (ts : TableSchema) (st : TableState)
    (idv : IdArg) :
    (select_record_by_id ts st idv = .ok none →
      ∀ dnv cols vals,
        update_record_by_id ts st idv dnv cols vals = .error .recordNotFound) ∧
    (∀ r0, select_record_by_id ts st idv = .ok (some r0) →
      (∀ d, d.filter (fun kv => !isPrivateName kv.1) = [] →
        update_record_by_id ts st idv (some d) none none =
          .error .noUpdatableColumns) ∧
      (∀ d cs vs, cs ≠ [] ∨ vs ≠ [] →
        update_record_by_id ts st idv (some d) (some cs) (some vs) =
          .error .bothPatchForms)) := by
  constructor
  · intro hsel dnv cols vals
    obtain ⟨pk, hpk⟩ : ∃ pk, get_primary_key_column ts = .ok pk := by
      cases hpk : get_primary_key_column ts with
      | error e =>
        unfold select_record_by_id at hsel
        rw [hpk] at hsel
        cases hsel
      | ok pk => exact ⟨pk, rfl⟩
    simp [update_record_by_id, hpk, hsel]
  · intro r0 hsel
    obtain ⟨pk, hpk⟩ : ∃ pk, get_primary_key_column ts = .ok pk := by
      cases hpk : get_primary_key_column ts with
      | error e =>
        unfold select_record_by_id at hsel
        rw [hpk] at hsel
        cases hsel
      | ok pk => exact ⟨pk, rfl⟩
    constructor
    · intro d hd
      simp [update_record_by_id, hpk, hsel, hd]
    · intro d cs vs hcv
      have hcond : (some cs).getD ([] : List String) ≠ [] ∨
          (some vs).getD ([] : List Value) ≠ [] := hcv
      simp only [update_record_by_id, hpk, hsel]
      rw [if_pos hcond]

theorem update_record_by_id_contract_witness :
    update_record_by_id sitesTS stW (.scalar (.int 99))
      (some [("name", .str "x")]) none none = .error .recordNotFound ∧
    update_record_by_id sitesTS stW (.scalar (.int 1))
      (some [("_internal", .str "x")]) none none =
      .error .noUpdatableColumns ∧
    update_record_by_id sitesTS stW (.scalar (.int 1))
      (some [("name", .str "q")]) (some ["name"]) (some [.str "q"]) =
      .error .bothPatchForms :=
  ⟨(update_record_by_id_contract sitesTS stW (.scalar (.int 99))).1 rfl _ _ _,
   ((update_record_by_id_contract sitesTS stW
      (.scalar (.int 1))).2 rowSolo rfl).1 _ rfl,
   ((update_record_by_id_contract sitesTS stW
      (.scalar (.int 1))).2 rowSolo rfl).2 _ _ _ (Or.inl (by decide))⟩

theorem setattrE_is_dumped (e : Entity) (c : String) (v : Value) :
    (setattrE e c v).is_dumped = e.is_dumped := rfl

theorem foldl_setattrE_is_dumped (l : Row) (e : Entity) :
    (l.foldl (fun a kv => setattrE a kv.1 kv.2) e).is_dumped = e.is_dumped := by
  induction l generalizing e with
  | nil => rfl
  | cons kv l ih => rw [List.foldl_cons, ih, setattrE_is_dumped]

theorem initStep2_fst_not_dumped (s : EntitySchema) (kwargs : Row)
    (nowT : Value) : (initStep2 s kwargs nowT).1.is_dumped = false := by
  unfold initStep2
  split
  · rw [setattrE_is_dumped]
    unfold initStep1
    split <;> rfl
  · unfold initStep1
    split <;> rfl

theorem initEntity_not_dumped (s : EntitySchema) (kwargs : Row) (nowT : Value)
    (e : Entity) (h : initEntity s kwargs nowT = .ok e) :
    e.is_dumped = false := by
  unfold initEntity at h
  split at h
  · injection h with h
    subst h
    rw [foldl_setattrE_is_dumped, initStep2_fst_not_dumped]
  · cases h

theorem mapE_ok_mem {α β : Type} (f : α → Except DBError β) (l : List α)
    (ys : List β) (h : mapE f l = .ok ys) :
    ∀ y ∈ ys, ∃ x ∈ l, f x = .ok y := by
  induction l generalizing ys with
  | nil =>
    unfold mapE at h
    injection h with h
    subst h
    intro y hy
    cases hy
  | cons a l ih =>
    unfold mapE at h
    cases hfa : f a with
    | error er => rw [hfa] at h; cases h
    | ok b =>
      rw [hfa] at h
      cases hml : mapE f l with
      | error er => rw [hml] at h; cases h
      | ok bs =>
        rw [hml] at h
        injection h with h
        subst h
        intro y hy
        rcases List.mem_cons.mp hy with rfl | hy2
        · exact ⟨a, List.mem_cons_self _ _, hfa⟩
        · obtain ⟨x, hx, hfx⟩ := ih bs hml y hy2
          exact ⟨x, List.mem_cons_of_mem _ hx, hfx⟩

theorem from_id_in_database_dumped (s : EntitySchema) (ts : TableSchema)
    (st : TableState) (rid : List Value) (ent : Entity)
    (h : from_id_in_database s ts st rid = .ok ent) :
    ent.is_dumped = true := by
  unfold from_id_in_database at h
  split at h
  · cases h
  split at h
  · cases h
  cases rid with
  | nil => simp at h
  | cons rid0 ridtl =>
    cases hsel : select_record_by_id ts st (.scalar rid0) with
    | error er => simp [hsel] at h
    | ok r =>
      cases r with
      | none => simp [hsel] at h
      | some record =>
        by_cases hre : record.isEmpty = true
        · simp [hsel, hre] at h
        · simp [hsel, hre] at h
          rw [← h]

/-- C9: every instance `all` returns is rebuilt through the normal
constructor path, so its `persisted` flag is false, although it came from
a stored row — in contrast with `from_id_in_database`, whose result is
always marked persisted. -/
theorem allModels_not_persisted (s : EntitySchema) (ts : TableSchema)
    (st : TableState) (nowT : Value) (es : List Entity)
    (h : allModels s ts st nowT = .ok es) :
    (∀ e ∈ es, e.is_dumped = false) ∧
    (∀ rid ent, from_id_in_database s ts st rid = .ok ent →
      ent.is_dumped = true) := by
  constructor
  · intro e he
    unfold allModels at h
    cases hsel : select_records ts st (.strArg "*") [] [] [] with
    | error er => rw [hsel] at h; cases h
    | ok rows =>
      rw [hsel] at h
      obtain ⟨r, hr, hinit⟩ := mapE_ok_mem _ rows es h e he
      exact initEntity_not_dumped s r nowT e hinit
  · intro rid ent hent
    exact from_id_in_database_dumped s ts st rid ent hent

theorem allModels_not_persisted_witness :
    eW.is_dumped = false ∧ entW.is_dumped = true :=
  ⟨(allModels_not_persisted siteES sitesTS stW1 (.time 9) [eW] rfl).1 eW
     (List.mem_singleton.mpr rfl),
   (allModels_not_persisted siteES sitesTS stW1 (.time 9) [eW] rfl).2
     [.int 1] entW rfl⟩

/-- C10: for an entity type that does not declare `updated_at`, `update`
never returns normally — when every pre-check passes, the store-side
update executes (the result state is the updated one), and the write-back
of the local `updated_at` then raises `UnboundLocalError`; the call
completes only for entity types declaring `updated_at`. -/
theorem update_writeback_contract (s : EntitySchema) (ts : TableSchema)
    (st : TableState) (e : Entity) (colsArg : ColsParam) (nowT : Value) :
    ("updated_at" ∉ s.table_columns →
      isOkE (update s ts st e colsArg nowT).2 = false) ∧
    (∀ p rest d row2 st2, "updated_at" ∉ s.table_columns →
      pkVals s e = p :: rest →
      updateDictOf s e colsArg nowT = .ok d →
      update_record_by_id ts st (.scalar p) (some d) none none =
        .ok (row2, st2) →
      update s ts st e colsArg nowT = (st2, .error .unboundLocal)) ∧
    (∀ p rest d row2 st2, "updated_at" ∈ s.table_columns →
      pkVals s e = p :: rest →
      updateDictOf s e colsArg nowT = .ok d →
      update_record_by_id ts st (.scalar p) (some d) none none =
        .ok (row2, st2) →
      update s ts st e colsArg nowT =
        (st2, .ok (pkVals s (setattrE e "updated_at" nowT),
          setattrE e "updated_at" nowT))) := by
  refine ⟨fun hno => ?_, fun p rest d row2 st2 hno hpv hdo hu => ?_,
    fun p rest d row2 st2 hyes hpv hdo hu => ?_⟩
  · have hmb : memB "updated_at" s.table_columns = false :=
      (memB_eq_false _ _).mpr hno
    cases hdo : updateDictOf s e colsArg nowT with
    | error er => simp [update, hdo, isOkE]
    | ok d =>
      cases hpv : pkVals s e with
      | nil => simp [update, hdo, hpv, isOkE]
      | cons p rest =>
        cases hu : update_record_by_id ts st (.scalar p) (some d) none none with
        | error er => simp [update, hdo, hpv, hu, isOkE]
        | ok pr =>
          obtain ⟨row2, st2⟩ := pr
          simp [update, hdo, hpv, hu, hmb, isOkE]
  · have hmb : memB "updated_at" s.table_columns = false :=
      (memB_eq_false _ _).mpr hno
    simp [update, hdo, hpv, hu, hmb]
  · have hmb : memB "updated_at" s.table_columns = true :=
      (memB_iff _ _).mpr hyes
    simp [update, hdo, hpv, hu, hmb]

theorem update_writeback_contract_witness :
    update table1ES table1TS t1St t1Ent .star (.time 7) =
      (⟨[[("t1_id", .int 1), ("name_t1", .str "b")]], 2⟩,
       .error .unboundLocal) ∧
    update siteES sitesTS siteStW siteEntW .star (.time 7) =
      (⟨[[("site_id", .int 1), ("name", .str "a2"), ("base_url", .str "b"),
          ("updated_at", .time 7), ("created_at", .time 3)]], 2⟩,
       .ok ([.int 1], setattrE siteEntW "updated_at" (.time 7))) :=
  ⟨(update_writeback_contract table1ES table1TS t1St t1Ent .star
      (.time 7)).2.1 (.int 1) []
      [("name_t1", .str "b")]
      (some [("t1_id", .int 1), ("name_t1", .str "b")])
      ⟨[[("t1_id", .int 1), ("name_t1", .str "b")]], 2⟩
      (by decide) rfl rfl rfl,
   (update_writeback_contract siteES sitesTS siteStW siteEntW .star
      (.time 7)).2.2 (.int 1) []
      [("name", .str "a2"), ("base_url", .str "b"), ("updated_at", .time 7)]
      (some [("site_id", .int 1), ("name", .str "a2"), ("base_url", .str "b"),
        ("updated_at", .time 7), ("created_at", .time 3)])
      ⟨[[("site_id", .int 1), ("name", .str "a2"), ("base_url", .str "b"),
        ("updated_at", .time 7), ("created_at", .time 3)]], 2⟩
      (by decide) rfl rfl rfl⟩

/-! ## Lemmas towards the dump dedup/idempotence claim -/

theorem filter_congr_mem (l : List String) (p q : String → Bool)
    (h : ∀ c ∈ l, p c = q c) : l.filter p = l.filter q := by
  induction l with
  | nil => rfl
  | cons a l ih =>
    rw [List.filter_cons, List.filter_cons, h a (List.mem_cons_self _ _),
      ih (fun c hc => h c (List.mem_cons_of_mem _ hc))]

theorem snapshotNoPk_eq (s : EntitySchema) (e : Entity) :
    snapshotNoPk s e = (snapKeys s).map (fun c => (c, getattrE e c)) := by
  unfold snapshotNoPk dict_record snapKeys
  exact filter_map_pair
    (s.table_columns.filter (fun c => !memB c ignored_columns_in_dict_record))
    (fun c => getattrE e c) (fun c => !memB c s.table_id)

theorem dumpPayload_eq (s : EntitySchema) (e : Entity) :
    dumpPayload s e = snapshotNoPk s e := by
  unfold dumpPayload snapshotNoPk
  unfold dict_record
  rw [filter_map_pair
      (s.table_columns.filter (fun c => !memB c ignored_columns_in_dict_record))
      (fun c => getattrE e c)
      (fun c => memB c s.table_columns && !memB c s.table_id),
    filter_map_pair
      (s.table_columns.filter (fun c => !memB c ignored_columns_in_dict_record))
      (fun c => getattrE e c) (fun c => !memB c s.table_id)]
  congr 1
  apply filter_congr_mem
  intro c hc
  have hmem : c ∈ s.table_columns := (List.mem_filter.mp hc).1
  rw [(memB_iff c s.table_columns).mpr hmem]
  rfl

theorem snapKeys_subset (s : EntitySchema) :
    ∀ c ∈ snapKeys s, c ∈ s.table_columns := by
  intro c hc
  exact (List.mem_filter.mp ((List.mem_filter.mp hc).1)).1

theorem pk_not_in_snapKeys (s : EntitySchema) (pkcol : String)
    (hid : s.table_id = [pkcol]) : pkcol ∉ snapKeys s := by
  intro hc
  have h2 := (List.mem_filter.mp hc).2
  rw [hid] at h2
  have : memB pkcol [pkcol] = true := (memB_iff _ _).mpr (by simp)
  rw [this] at h2
  cases h2

theorem created_at_not_in_snapKeys (s : EntitySchema) :
    "created_at" ∉ snapKeys s := by
  intro hc
  have h2 := (List.mem_filter.mp ((List.mem_filter.mp hc).1)).2
  have : memB "created_at" ignored_columns_in_dict_record = true := by decide
  rw [this] at h2
  cases h2

theorem snapKeys_nodup (s : EntitySchema) (h : s.table_columns.Nodup) :
    (snapKeys s).Nodup :=
  (h.filter _).filter _

theorem nodup_append_singleton {l : List String} {a : String}
    (h : l.Nodup) (ha : a ∉ l) : (l ++ [a]).Nodup := by
  rw [List.nodup_append]
  refine ⟨h, List.nodup_singleton a, ?_⟩
  intro x hx hxa
  rw [List.mem_singleton.mp hxa] at hx
  exact ha hx

/-- What `INSERT ... RETURNING *` does on a well-formed record: the full
row comes back with the serial key freshly assigned, the row is appended,
and the sequence advances. -/
theorem insert_record_spec (ts : TableSchema) (st : TableState) (rec : Row)
    (pkcol : String)
    (hserial : ts.serial = some pkcol)
    (hpkmem : pkcol ∈ ts.columns)
    (hnodup : (rec.map Prod.fst).Nodup)
    (hnopriv : ∀ kv ∈ rec, isPrivateName kv.1 = false)
    (hsub : ∀ kv ∈ rec, kv.1 ∈ ts.columns)
    (hpkfresh : pkcol ∉ rec.map Prod.fst) :
    insert_record ts st (rec.map Prod.fst) (rec.map Prod.snd) =
      .ok (ts.columns.map (fun c => (c, storedValue ts st.nextId rec c)),
           ⟨st.rows ++ [ts.columns.map (fun c => (c, storedValue ts st.nextId rec c))],
            st.nextId + 1⟩) := by
  have hfilter : rec.filter (fun cv => !isPrivateName cv.1) = rec := by
    rw [List.filter_eq_self]
    intro a ha
    rw [hnopriv a ha]
    rfl
  have hall : rec.all (fun kv => memB kv.1 ts.columns) = true := by
    rw [List.all_eq_true]
    intro kv hkv
    exact (memB_iff _ _).mpr (hsub kv hkv)
  have hisnone : (lookupR rec pkcol).isNone = true := by
    rw [lookupR_eq_none rec pkcol hpkfresh]
    rfl
  simp only [insert_record, zip_fst_snd, hfilter,
    dictOfPairs_eq_self rec hnodup, hall, if_true, hserial]
  have hmb : memB pkcol ts.columns = true := (memB_iff _ _).mpr hpkmem
  simp [hmb, hisnone]

theorem select_unique_ok (ts : TableSchema) (st : TableState) (conds : Row)
    (hkeys : ∀ cv ∈ conds, cv.1 ∈ ts.columns) (hne : conds ≠ []) :
    (st.rows.filter (condsMatch conds) = [] →
      select_unique_record ts st conds = .ok none) ∧
    ∀ r, st.rows.filter (condsMatch conds) = [r] →
      select_unique_record ts st conds = .ok (some r) := by
  have hall : conds.all (fun cv => memB cv.1 ts.columns) = true := by
    rw [List.all_eq_true]
    intro cv hcv
    exact (memB_iff _ _).mpr (hkeys cv hcv)
  have hie : conds.isEmpty = false := by
    cases conds
    · exact absurd rfl hne
    · rfl
  constructor
  · intro h0
    simp [select_unique_record, hie, hall, h0]
  · intro r hr
    simp [select_unique_record, hie, hall, hr]

theorem record_exists_of_none (s : EntitySchema) (ts : TableSchema)
    (st : TableState) (e : Entity)
    (hkeys : ∀ cv ∈ snapshotNoPk s e, cv.1 ∈ ts.columns)
    (hne : snapshotNoPk s e ≠ [])
    (hnomatch : st.rows.filter (condsMatch (snapshotNoPk s e)) = []) :
    record_exists s ts st e = .ok false := by
  unfold record_exists
  rw [(select_unique_ok ts st _ hkeys hne).1 hnomatch]
  rfl

theorem record_exists_of_one (s : EntitySchema) (ts : TableSchema)
    (st : TableState) (e : Entity) (r : Row)
    (hkeys : ∀ cv ∈ snapshotNoPk s e, cv.1 ∈ ts.columns)
    (hne : snapshotNoPk s e ≠ [])
    (hone : st.rows.filter (condsMatch (snapshotNoPk s e)) = [r])
    (hrne : r ≠ []) :
    record_exists s ts st e = .ok true := by
  unfold record_exists
  rw [(select_unique_ok ts st _ hkeys hne).2 r hone]
  have : r.isEmpty = false := by
    cases r
    · exact absurd rfl hrne
    · rfl
  simp [rowTruthy, this]

/-- The row `INSERT ... RETURNING *` stores for a snapshot-based record:
its serial key holds the fresh sequence value, it matches the snapshot
conditions, and it is non-empty. -/
theorem stored_row_facts (s : EntitySchema) (ts : TableSchema) (pkcol : String)
    (e : Entity) (n : Int) (rec : Row)
    (hcols : ts.columns = s.table_columns)
    (hcne : s.table_columns ≠ [])
    (hserial : ts.serial = some pkcol)
    (hpkmem : pkcol ∈ s.table_columns)
    (hpkfresh : pkcol ∉ rec.map Prod.fst)
    (hreclook : ∀ c ∈ snapKeys s, lookupR rec c = some (getattrE e c)) :
    lookupR (ts.columns.map (fun c => (c, storedValue ts n rec c))) pkcol
      = some (.int n) ∧
    condsMatch (snapshotNoPk s e)
      (ts.columns.map (fun c => (c, storedValue ts n rec c))) = true ∧
    ts.columns.map (fun c => (c, storedValue ts n rec c)) ≠ [] := by
  have hpkmem2 : pkcol ∈ ts.columns := by rw [hcols]; exact hpkmem
  have hstored_pk : storedValue ts n rec pkcol = .int n := by
    unfold storedValue
    rw [lookupR_eq_none rec pkcol hpkfresh, hserial]
    simp
  refine ⟨?_, ?_, ?_⟩
  · rw [lookupR_map_pair ts.columns _ pkcol hpkmem2, hstored_pk]
  · unfold condsMatch
    rw [List.all_eq_true]
    intro cv hcv
    rw [snapshotNoPk_eq] at hcv
    obtain ⟨c, hc, hcv2⟩ := List.mem_map.mp hcv
    subst hcv2
    have hcmem : c ∈ ts.columns := by
      rw [hcols]
      exact snapKeys_subset s c hc
    have : lookupD (ts.columns.map (fun c => (c, storedValue ts n rec c))) c
        = getattrE e c := by
      unfold lookupD
      rw [lookupR_map_pair ts.columns _ c hcmem]
      show storedValue ts n rec c = getattrE e c
      unfold storedValue
      rw [hreclook c hc]
    rw [this]
    simp
  · rw [hcols]
    intro hmap
    exact hcne (List.map_eq_nil_iff.mp hmap)

/-- `dump` on a store holding no value-equal row (or with `force`): the
snapshot payload (plus `created_at` when declared) is inserted, the fresh
serial key is returned and copied onto the instance, and the new row is
appended to the store. -/
theorem dump_inserts_fresh (s : EntitySchema) (ts : TableSchema)
    (pkcol : String) (e : Entity) (st : TableState) (force : Bool)
    (hdecl : init_subclass s.table_columns s.table_id = .ok ())
    (hid : s.table_id = [pkcol])
    (hcols : ts.columns = s.table_columns)
    (hnodup : s.table_columns.Nodup)
    (hserial : ts.serial = some pkcol)
    (hca : pkcol ≠ "created_at")
    (hne : snapshotNoPk s e ≠ [])
    (hgo : force = true ∨ st.rows.filter (condsMatch (snapshotNoPk s e)) = []) :
    ∃ r,
      condsMatch (snapshotNoPk s e) r = true ∧
      lookupR r pkcol = some (.int st.nextId) ∧
      r ≠ [] ∧
      dump s ts st e force =
        .ok ([.int st.nextId],
          setattrE ⟨e.fields, true⟩ pkcol (.int st.nextId),
          ⟨st.rows ++ [r], st.nextId + 1⟩) := by
  obtain ⟨hcne, hpriv, hids⟩ := (init_subclass_iff _ _).mp hdecl
  have hpkmem : pkcol ∈ s.table_columns := hids pkcol (by rw [hid]; simp)
  have hsnapfst : (snapshotNoPk s e).map Prod.fst = snapKeys s := by
    rw [snapshotNoPk_eq]
    exact map_fst_map_pair _ _
  have hsnKnodup := snapKeys_nodup s hnodup
  have hpkfreshS : pkcol ∉ snapKeys s := pk_not_in_snapKeys s pkcol hid
  have hcafreshS : "created_at" ∉ snapKeys s := created_at_not_in_snapKeys s
  have hlookS : ∀ c ∈ snapKeys s,
      lookupR (snapshotNoPk s e) c = some (getattrE e c) := by
    intro c hc
    rw [snapshotNoPk_eq]
    exact lookupR_map_pair _ _ c hc
  have hkeys : ∀ cv ∈ snapshotNoPk s e, cv.1 ∈ ts.columns := by
    intro cv hcv
    rw [hcols]
    apply snapKeys_subset
    rw [← hsnapfst]
    exact List.mem_map_of_mem Prod.fst hcv
  have hbranch : (if force then (Except.ok false : Except DBError Bool)
      else record_exists s ts st e) = .ok false := by
    cases force
    · rcases hgo with hg | hg
      · cases hg
      · exact record_exists_of_none s ts st e hkeys hne hg
    · rfl
  -- The inserted record and the insert equation, by cases on `created_at`.
  obtain ⟨rec, hreclook, hpkfreshR, hinsEq⟩ :
      ∃ rec,
        (∀ c ∈ snapKeys s, lookupR rec c = some (getattrE e c)) ∧
        pkcol ∉ rec.map Prod.fst ∧
        insert_record ts st (dumpInsCols s e) (dumpInsVals s e) =
          .ok (ts.columns.map (fun c => (c, storedValue ts st.nextId rec c)),
            ⟨st.rows ++
              [ts.columns.map (fun c => (c, storedValue ts st.nextId rec c))],
             st.nextId + 1⟩) := by
    by_cases hcat : memB "created_at" s.table_columns = true
    · refine ⟨snapshotNoPk s e ++ [("created_at", getattrE e "created_at")],
        ?_, ?_, ?_⟩
      · intro c hc
        exact lookupR_append_left _ _ c _ (hlookS c hc)
      · intro hmem
        rw [List.map_append] at hmem
        rcases List.mem_append.mp hmem with hm | hm
        · rw [hsnapfst] at hm
          exact hpkfreshS hm
        · simp at hm
          exact hca hm
      · have hc1 : dumpInsCols s e =
            (snapshotNoPk s e ++
              [("created_at", getattrE e "created_at")]).map Prod.fst := by
          unfold dumpInsCols
          rw [if_pos hcat, dumpPayload_eq, List.map_append]
          rfl
        have hc2 : dumpInsVals s e =
            (snapshotNoPk s e ++
              [("created_at", getattrE e "created_at")]).map Prod.snd := by
          unfold dumpInsVals
          rw [if_pos hcat, dumpPayload_eq, List.map_append]
          rfl
        rw [hc1, hc2]
        apply insert_record_spec
        · exact hserial
        · rw [hcols]; exact hpkmem
        · rw [List.map_append, hsnapfst]
          exact nodup_append_singleton hsnKnodup hcafreshS
        · intro kv hkv
          rcases List.mem_append.mp hkv with hm | hm
          · apply hpriv
            apply snapKeys_subset
            rw [← hsnapfst]
            exact List.mem_map_of_mem Prod.fst hm
          · rw [List.mem_singleton.mp hm]
            rfl
        · intro kv hkv
          rcases List.mem_append.mp hkv with hm | hm
          · exact hkeys kv hm
          · rw [List.mem_singleton.mp hm, hcols]
            exact (memB_iff _ _).mp hcat
        · rw [List.map_append, hsnapfst]
          intro hmem
          rcases List.mem_append.mp hmem with hm | hm
          · exact hpkfreshS hm
          · simp at hm
            exact hca hm
    · refine ⟨snapshotNoPk s e, hlookS, ?_, ?_⟩
      · rw [hsnapfst]
        exact hpkfreshS
      · have hc1 : dumpInsCols s e = (snapshotNoPk s e).map Prod.fst := by
          unfold dumpInsCols
          rw [if_neg hcat, dumpPayload_eq]
        have hc2 : dumpInsVals s e = (snapshotNoPk s e).map Prod.snd := by
          unfold dumpInsVals
          rw [if_neg hcat, dumpPayload_eq]
        rw [hc1, hc2]
        apply insert_record_spec
        · exact hserial
        · rw [hcols]; exact hpkmem
        · rw [hsnapfst]
          exact hsnKnodup
        · intro kv hkv
          apply hpriv
          apply snapKeys_subset
          rw [← hsnapfst]
          exact List.mem_map_of_mem Prod.fst hkv
        · exact hkeys
        · rw [hsnapfst]
          exact hpkfreshS
  obtain ⟨hR1, hR2, hR3⟩ := stored_row_facts s ts pkcol e st.nextId rec
    hcols hcne hserial hpkmem hpkfreshR hreclook
  refine ⟨_, hR2, hR1, hR3, ?_⟩
  simp only [dump, hbranch, Bool.and_false, Bool.false_eq_true, if_false,
    hinsEq, hid]
  simp [mapE, getItem, hR1, lookupD]

/-- `dump` on a store holding exactly one row matching the snapshot: the
matching row is re-resolved, its primary-key value is copied onto the
instance and returned, and nothing is inserted. -/
theorem dump_dedups (s : EntitySchema) (ts : TableSchema) (pkcol : String)
    (e : Entity) (st : TableState) (r : Row) (v : Value)
    (hid : s.table_id = [pkcol])
    (hkeys : ∀ cv ∈ snapshotNoPk s e, cv.1 ∈ ts.columns)
    (hne : snapshotNoPk s e ≠ [])
    (hfilter : st.rows.filter (condsMatch (snapshotNoPk s e)) = [r])
    (hrne : r ≠ [])
    (hlook : lookupR r pkcol = some v) :
    dump s ts st e false = .ok ([v], setattrE e pkcol v, st) := by
  have hsu : select_unique_record ts st (snapshotNoPk s e) = .ok (some r) :=
    (select_unique_ok ts st _ hkeys hne).2 r hfilter
  have hre : record_exists s ts st e = .ok true :=
    record_exists_of_one s ts st e r hkeys hne hfilter hrne
  have hdp : dumpPayload s e = snapshotNoPk s e := dumpPayload_eq s e
  simp only [dump, hre, Bool.not_false, Bool.true_and, if_true, hdp, hsu, hid]
  simp [mapE, getItem, hlook, lookupD]

/-- C1: dedup idempotence of `dump`.  For every validly declared
single-serial-key entity type and every pair of value-equal instances
(equal non-key, non-timestamp field snapshots), starting from a store with
no matching row: the first `dump` inserts one row and returns the fresh
key; a second `dump` with `force=False` performs no insert, copies the
stored row's primary-key value onto the instance, returns the same key and
leaves exactly one matching stored row; a second `dump` with `force=True`
instead inserts a second row, returning a distinct key and leaving two
stored rows. -/
theorem dump_dedup_idempotent
    (s : EntitySchema) (ts : TableSchema) (pkcol : String)
    (e1 e2 : Entity) (st0 : TableState)
    (hdecl : init_subclass s.table_columns s.table_id = .ok ())
    (hid : s.table_id = [pkcol])
    (hcols : ts.columns = s.table_columns)
    (hnodup : s.table_columns.Nodup)
    (hserial : ts.serial = some pkcol)
    (hca : pkcol ≠ "created_at")
    (hsnap : snapshotNoPk s e2 = snapshotNoPk s e1)
    (hne : snapshotNoPk s e1 ≠ [])
    (hnomatch : st0.rows.filter (condsMatch (snapshotNoPk s e1)) = []) :
    ∃ st1 r,
      st1.rows = st0.rows ++ [r] ∧
      st1.rows.filter (condsMatch (snapshotNoPk s e1)) = [r] ∧
      dump s ts st0 e1 false =
        .ok ([.int st0.nextId],
          setattrE ⟨e1.fields, true⟩ pkcol (.int st0.nextId), st1) ∧
      dump s ts st1 e2 false =
        .ok ([.int st0.nextId], setattrE e2 pkcol (.int st0.nextId), st1) ∧
      ∃ st2 r2,
        dump s ts st1 e2 true =
          .ok ([.int (st0.nextId + 1)],
            setattrE ⟨e2.fields, true⟩ pkcol (.int (st0.nextId + 1)), st2) ∧
        st2.rows = st1.rows ++ [r2] ∧
        st2.rows.filter (condsMatch (snapshotNoPk s e1)) = [r, r2] ∧
        [Value.int (st0.nextId + 1)] ≠ [Value.int st0.nextId] := by
  obtain ⟨r, hmatch, hlook, hrne, hdump1⟩ :=
    dump_inserts_fresh s ts pkcol e1 st0 false hdecl hid hcols hnodup hserial
      hca hne (Or.inr hnomatch)
  refine ⟨⟨st0.rows ++ [r], st0.nextId + 1⟩, r, rfl, ?_, hdump1, ?_, ?_⟩
  case refine_1 =>
    show (st0.rows ++ [r]).filter _ = [r]
    rw [List.filter_append, hnomatch]
    simp [hmatch]
  all_goals
    have hfilter1 : (TableState.mk (st0.rows ++ [r]) (st0.nextId + 1)).rows.filter
        (condsMatch (snapshotNoPk s e1)) = [r] := by
      show (st0.rows ++ [r]).filter _ = [r]
      rw [List.filter_append, hnomatch]
      simp [hmatch]
  all_goals
    have hkeys1 : ∀ cv ∈ snapshotNoPk s e1, cv.1 ∈ ts.columns := by
      intro cv hcv
      rw [hcols]
      apply snapKeys_subset
      have hf : (snapshotNoPk s e1).map Prod.fst = snapKeys s := by
        rw [snapshotNoPk_eq]
        exact map_fst_map_pair _ _
      rw [← hf]
      exact List.mem_map_of_mem Prod.fst hcv
  all_goals
    have hne2 : snapshotNoPk s e2 ≠ [] := by rw [hsnap]; exact hne
  case refine_2 =>
    have hkeys2 : ∀ cv ∈ snapshotNoPk s e2, cv.1 ∈ ts.columns := by
      rw [hsnap]
      exact hkeys1
    have hfilter2 : (TableState.mk (st0.rows ++ [r]) (st0.nextId + 1)).rows.filter
        (condsMatch (snapshotNoPk s e2)) = [r] := by
      rw [hsnap]
      exact hfilter1
    exact dump_dedups s ts pkcol e2 ⟨st0.rows ++ [r], st0.nextId + 1⟩ r
      (.int st0.nextId) hid hkeys2 hne2 hfilter2 hrne hlook
  case refine_3 =>
    obtain ⟨r2, hmatch2, hlook2, hr2ne, hdump3⟩ :=
      dump_inserts_fresh s ts pkcol e2 ⟨st0.rows ++ [r], st0.nextId + 1⟩ true
        hdecl hid hcols hnodup hserial hca hne2 (Or.inl rfl)
    refine ⟨⟨(st0.rows ++ [r]) ++ [r2], (st0.nextId + 1) + 1⟩, r2,
      hdump3, rfl, ?_, ?_⟩
    · show ((st0.rows ++ [r]) ++ [r2]).filter _ = [r, r2]
      rw [List.filter_append, hfilter1]
      have hm2 : condsMatch (snapshotNoPk s e1) r2 = true := by
        rw [← hsnap]
        exact hmatch2
      simp [hm2]
    · intro hcontra
      rw [List.cons.injEq] at hcontra
      rcases hcontra with ⟨hv, -⟩
      rw [Value.int.injEq] at hv
      omega

theorem dump_dedup_idempotent_witness :
    ∃ st1 r,
      st1.rows = [] ++ [r] ∧
      st1.rows.filter (condsMatch (snapshotNoPk siteES e1W)) = [r] ∧
      dump siteES sitesTS ⟨[], 1⟩ e1W false =
        .ok ([.int 1], setattrE ⟨e1W.fields, true⟩ "site_id" (.int 1), st1) ∧
      dump siteES sitesTS st1 e1W false =
        .ok ([.int 1], setattrE e1W "site_id" (.int 1), st1) ∧
      ∃ st2 r2,
        dump siteES sitesTS st1 e1W true =
          .ok ([.int 2], setattrE ⟨e1W.fields, true⟩ "site_id" (.int 2), st2) ∧
        st2.rows = st1.rows ++ [r2] ∧
        st2.rows.filter (condsMatch (snapshotNoPk siteES e1W)) = [r, r2] ∧
        [Value.int 2] ≠ [Value.int 1] :=
  dump_dedup_idempotent siteES sitesTS "site_id" e1W e1W ⟨[], 1⟩
    rfl rfl rfl (by decide) rfl (by decide) rfl (by decide) rfl

end UsedCarsETL
